import Mathlib

/-!
Verification development for the Nyaay-Darpan contract-analysis system.

The frontend pipeline (input form, analyzing page, report page) is embedded
from the TypeScript sources.  The Karma-Check backend (case retriever, risk
scorer, name normalization) ships as a separate Flask service whose Python
sources are not in this tree; those components are modelled from the design
document and are marked as such in their doc comments.
-/

namespace NyaayDarpan

/-! ## Frontend: report page risk colors (src/src/pages/Index.tsx, getRiskColor) -/

/-- JavaScript `s.toLowerCase()`: lower-case every character. -/
def lowerStr (s : String) : String :=
  ⟨s.data.map Char.toLower⟩

/-- JavaScript `!s.trim()`: the string is empty or all-whitespace. -/
def isBlank (s : String) : Bool :=
  s.data.all (·.isWhitespace)

/-- `getRiskColor` from the report view: switches on the lower-cased risk
level and yields a badge variant, defaulting to "secondary". -/
def getRiskColor (level : String) : String :=
  if lowerStr level = "high" then "destructive"
  else if lowerStr level = "medium" then "warning"
  else if lowerStr level = "low" then "success"
  else "secondary"

/-! ## Frontend: input form submission (InputPage handleSubmit) -/

/-- The record stored in sessionStorage under key contractData. -/
structure ContractData where
  contractText : String
  partyName : String
  language : String
  timestamp : Nat
deriving DecidableEq

/-- Result of a form submission: either an error toast with no further
effect, or acceptance that stores the data and navigates to /analyzing. -/
inductive SubmitResult where
  | rejected (toastTitle : String)
  | accepted (stored : ContractData)
deriving DecidableEq

/-- `handleSubmit` from the input page: validates that the contract text and
the counterparty name are non-blank (JS `!s.trim()`), storing the data and
navigating only when both checks pass. -/
def handleSubmit (contractText partyName language : String) (now : Nat) :
    SubmitResult :=
  if isBlank contractText then .rejected "Contract Required"
  else if isBlank partyName then .rejected "Party Name Required"
  else .accepted ⟨contractText, partyName, language, now⟩

/-- What a submission writes to sessionStorage (nothing when rejected). -/
def submitStores : SubmitResult → Option ContractData
  | .rejected _ => none
  | .accepted d => some d

/-- Whether a submission navigates to the analysis flow. -/
def submitNavigates : SubmitResult → Bool
  | .rejected _ => false
  | .accepted _ => true

/-! ## Frontend: contract-finding normalization (Index.tsx displayResults) -/

/-- A raw loophole item as returned by the LLM-backed ultra-analysis call;
`loophole_type` and `exploitation_potential` are free-form strings. -/
structure LoopholeItem where
  loophole_type : String
  exploitation_potential : String
  description : String
  mitigation_strategy : String
deriving DecidableEq

/-- A normalized row of the contract-analysis table shown in the report. -/
structure AnalysisRow where
  id : Nat
  title : String
  riskLevel : String
  summary : String
  details : String
  clause : String
  recommendation : String
deriving DecidableEq

/-- The per-item mapping inside `displayResults.contractAnalysis`: any
category other than "ambiguity" becomes "Missing Protection" and any
severity other than "high"/"medium" becomes "Low". -/
def normalizeLoophole (idx : Nat) (item : LoopholeItem) : AnalysisRow :=
  { id := idx + 1
    title := if item.loophole_type = "ambiguity" then "Ambiguous Clause"
      else "Missing Protection"
    riskLevel := if item.exploitation_potential = "high" then "High"
      else if item.exploitation_potential = "medium" then "Medium" else "Low"
    summary := item.description
    details := item.description
    clause := "N/A"
    recommendation := item.mitigation_strategy }

/-- `displayResults.contractAnalysis`: maps every raw loophole item to a
normalized row (0-based index becomes a 1-based id). -/
def contractAnalysisRows (items : List LoopholeItem) : List AnalysisRow :=
  items.enum.map fun p => normalizeLoophole p.1 p.2

/-! ## Frontend: karma check fetch (Index.tsx performKarmaCheck) -/

/-- The JSON body the /api/karma-check endpoint returns on success. -/
structure KarmaCheckResponse where
  company : String
  summary : String
  cases_found : Nat
  risk_level : String
deriving DecidableEq

/-- An HTTP response as the frontend sees it: an ok flag plus a parsed body. -/
structure KarmaFetchResponse where
  ok : Bool
  body : KarmaCheckResponse
deriving DecidableEq

/-- `performKarmaCheck`: sets `karmaCheckResults` only when the fetch
succeeds with an ok status; a thrown error is caught and logged, a non-ok
status is ignored, and in both cases the state stays null (`none`). -/
def performKarmaCheck : Except String KarmaFetchResponse →
    Option KarmaCheckResponse
  | .error _ => none
  | .ok r => if r.ok then some r.body else none

/-- Whether the karma-check fetch failed (threw or returned non-OK). -/
def karmaFetchFailed : Except String KarmaFetchResponse → Bool
  | .error _ => true
  | .ok r => !r.ok

/-- A row of the karma-check section of the report. -/
structure KarmaRow where
  id : Nat
  caseName : String
  summary : String
  relevance : String
  outcome : String
  year : String
deriving DecidableEq

/-- `displayResults.karmaCheck`: one summary row when karma results exist,
otherwise the empty list. -/
def karmaCheckRows : Option KarmaCheckResponse → List KarmaRow
  | none => []
  | some k =>
    [{ id := 1
       caseName := k.company ++ " Legal History"
       summary := k.summary
       relevance := "Found " ++ toString k.cases_found ++
         " cases with risk level: " ++ k.risk_level
       outcome := if k.risk_level = "low" then "No major issues found"
         else "Some concerns identified"
       year := "Recent" }]

/-! ## Frontend: analyzing page (src AnalyzingPage callBackendAPI) -/

/-- The parsed ultra-analysis JSON as the report page consumes it. -/
structure ParsedAnalysis where
  risk_score : Nat
  overall_risk_level : String
  loopholes : List LoopholeItem
deriving DecidableEq

/-- An ultra-analysis HTTP response: ok flag plus parsed body. -/
structure AnalysisFetchResponse where
  ok : Bool
  body : ParsedAnalysis
deriving DecidableEq

/-- Observable outcome of the analyzing page effect: what it stores in
sessionStorage, whether it navigates to /report, and whether any error UI
(alert/toast) is shown to the user. -/
structure AnalyzeOutcome where
  storedAnalysis : Option ParsedAnalysis
  navigatesToReport : Bool
  alertShown : Bool
deriving DecidableEq

/-- `callBackendAPI` from the analyzing page: on success it stores the
result and redirects to /report; a thrown error or non-OK status lands in
the catch block, which logs to the console, runs the fallback animation and
still redirects to /report, storing nothing and showing no error UI. -/
def callBackendAPI : Except String AnalysisFetchResponse → AnalyzeOutcome
  | .error _ => { storedAnalysis := none, navigatesToReport := true,
                  alertShown := false }
  | .ok r =>
    if r.ok then
      { storedAnalysis := some r.body, navigatesToReport := true,
        alertShown := false }
    else
      { storedAnalysis := none, navigatesToReport := true,
        alertShown := false }

/-- Whether the analysis fetch failed (threw or returned non-OK). -/
def analysisFetchFailed : Except String AnalysisFetchResponse → Bool
  | .error _ => true
  | .ok r => !r.ok

/-- A community-insight row (theme, count, summary). -/
structure InsightRow where
  theme : String
  count : Nat
  summary : String
deriving DecidableEq

/-- The aggregate object the report page renders. -/
structure DisplayResults where
  overallRisk : Nat
  riskLevel : String
  contractAnalysis : List AnalysisRow
  karmaCheck : List KarmaRow
  communityInsights : List InsightRow
deriving DecidableEq

/-- The hard-coded community insights shown when analysis results exist. -/
def fixedInsights : List InsightRow :=
  [⟨"Payment Delays", 3,
     "3 users reported slow payment from this company. Average delay: 45 days."⟩,
   ⟨"Communication Issues", 2,
     "2 users mentioned poor response time to queries and concerns."⟩,
   ⟨"Contract Clarity", 4,
     "4 users noted unclear termination clauses in similar contracts."⟩]

/-- The default object of the `displayResults` ternary when no analysis
results are stored. The report page never renders it: the early return
guarding the render fires first on null results, so this branch is dead
code in the component. -/
def degradedDisplay : DisplayResults :=
  { overallRisk := 0
    riskLevel := "Unknown"
    contractAnalysis := []
    karmaCheck := []
    communityInsights := [] }

/-- The `displayResults` ternary from the report page: the object it
computes before any rendering decision. When `stored` is `none` the
computed default is never shown, because the component early-returns the
error view first (see `reportPageView`). -/
def displayResultsOf (stored : Option ParsedAnalysis)
    (karma : Option KarmaCheckResponse) : DisplayResults :=
  match stored with
  | none => degradedDisplay
  | some a =>
    { overallRisk := a.risk_score
      riskLevel := a.overall_risk_level
      contractAnalysis := contractAnalysisRows a.loopholes
      karmaCheck := karmaCheckRows karma
      communityInsights := fixedInsights }

/-- What the report page actually renders. -/
inductive ReportView where
  | errorNotFound
  | report (results : DisplayResults)
deriving DecidableEq

/-- The report page render: when no analysis results are stored, the
component early-returns the "Analysis Results Not Found" error view with a
retry link; only otherwise does it render the report built from
`displayResults`. -/
def reportPageView (stored : Option ParsedAnalysis)
    (karma : Option KarmaCheckResponse) : ReportView :=
  match stored with
  | none => .errorNotFound
  | some a => .report (displayResultsOf (some a) karma)

/-! ## Backend Risk Scorer (services/rag_service.py, not in this tree).

Modelled from the spec, section 4.3: the Python sources of the Karma-Check
RAG service are not part of this tree, so the scorer is embedded from the
design document's algorithm. -/

/-- Case outcome vocabulary of a CaseDocument. -/
inductive Outcome where
  | plaintiff_won
  | defendant_won
  | settled
  | dismissed
  | unknown
deriving DecidableEq

/-- A retrieved case together with the metadata the scorer consumes. -/
structure ScoredCase where
  document_id : Nat
  outcome : Outcome
  counterpartyWasDefendant : Bool
  ageYears : ℚ
  name_match_confidence : ℚ
deriving DecidableEq

/-- Modelled from the spec: outcome_weight maps defendant_won or settled
against the counterparty to 1.0, dismissed to 0.3, plaintiff_won to 1.0
when the counterparty was the defendant and 0.2 otherwise, unknown to
0.5. -/
def outcome_weight (o : Outcome) (counterpartyWasDefendant : Bool) : ℚ :=
  match o with
  | .defendant_won => 1
  | .settled => 1
  | .dismissed => 3 / 10
  | .plaintiff_won => if counterpartyWasDefendant then 1 else 1 / 5
  | .unknown => 1 / 2

/-- Modelled from the spec: recency_weight decays linearly from 1.0 (cases
within 2 years) to 0.2 (cases 10 or more years old), floored at 0.2. -/
def recency_weight (age : ℚ) : ℚ :=
  if age ≤ 2 then 1 else max (1 / 5) (1 - (age - 2) / 10)

/-- Modelled from the spec: case_weight = outcome_weight * recency_weight *
name_match_confidence. -/
def case_weight (c : ScoredCase) : ℚ :=
  outcome_weight c.outcome c.counterpartyWasDefendant *
    recency_weight c.ageYears * c.name_match_confidence

/-- Total adverse-evidence weight of a retrieval result. -/
def weight_sum (cases : List ScoredCase) : ℚ :=
  (cases.map case_weight).sum

/-- Modelled from the spec: tunable normalization constant, default 3.0. -/
def normalization_constant : ℚ := 3

/-- Modelled from the spec: numeric_score =
min(100, round(100 * (1 - exp(-sum / normalization_constant)))). -/
noncomputable def numeric_score_of_sum (s : ℝ) : ℤ :=
  min 100 (round ((100 : ℝ) *
    (1 - Real.exp (-s / (normalization_constant : ℝ)))))

/-- Risk tiers of a KarmaScore. -/
inductive RiskLevel where
  | low
  | medium
  | high
deriving DecidableEq

/-- Modelled from the spec: fixed tertile thresholds (low below 34, medium
below 67, high otherwise). -/
def risk_level_of (n : ℤ) : RiskLevel :=
  if n < 34 then .low else if n < 67 then .medium else .high

/-- The scorer's output. -/
structure KarmaScore where
  numeric_score : ℤ
  risk_level : RiskLevel
  cases_considered : List ScoredCase
  summary_text : String

/-- Ranking of cases for the evidence list: heavier case_weight first. -/
def weightRank (a b : ScoredCase) : Prop :=
  case_weight b ≤ case_weight a

instance : DecidableRel weightRank := fun a b =>
  inferInstanceAs (Decidable (case_weight b ≤ case_weight a))

/-- Modelled from the spec: deterministic summary generated from the top
cases by case_weight, independent of any generative model. -/
def summary_from (top : List ScoredCase) : String :=
  "based on " ++ toString top.length ++ " adverse cases on record"

/-- Modelled from the spec, section 4.3: the Risk Scorer. Zero cases yield
the floor score with the no-history summary; otherwise the saturating
weighted-sum formula with cases ranked by case_weight. -/
noncomputable def riskScorer (cases : List ScoredCase) : KarmaScore :=
  if cases = [] then
    { numeric_score := 0
      risk_level := .low
      cases_considered := []
      summary_text := "no adverse history found" }
  else
    let ranked := List.insertionSort weightRank cases
    let n := numeric_score_of_sum ((weight_sum cases : ℚ) : ℝ)
    { numeric_score := n
      risk_level := risk_level_of n
      cases_considered := ranked
      summary_text := summary_from (ranked.take 3) }

/-! ## Backend Case Retriever (services/rag_service.py, not in this tree).

Modelled from the spec, section 4.2, steps 4-5: merge the name-match and
semantic candidate pools by document_id, rank by the composite score
0.6 * name_match_confidence + 0.4 * similarity_score in descending order
with ties broken by most recent filed_date, deduplicate, truncate to the
query limit. -/

/-- A retrieval candidate: document id, semantic similarity, name-match
confidence, and the filing date (days since epoch; larger = more recent)
used for tie-breaking. -/
structure RetrievedCase where
  document_id : Nat
  similarity_score : ℚ
  name_match_confidence : ℚ
  filed_date : Nat
deriving DecidableEq

/-- Modelled from the spec: composite ranking score
0.6 * name_match_confidence + 0.4 * similarity_score. -/
def composite_score (c : RetrievedCase) : ℚ :=
  3 / 5 * c.name_match_confidence + 2 / 5 * c.similarity_score

/-- Ranking order: higher composite score first, ties broken by the more
recent filed_date. -/
def rankRel (a b : RetrievedCase) : Prop :=
  composite_score b < composite_score a ∨
    (composite_score a = composite_score b ∧ b.filed_date ≤ a.filed_date)

instance : DecidableRel rankRel := fun a b =>
  inferInstanceAs (Decidable (composite_score b < composite_score a ∨
    (composite_score a = composite_score b ∧
      b.filed_date ≤ a.filed_date)))

instance : IsTotal RetrievedCase rankRel where
  total a b := by
    rcases lt_trichotomy (composite_score a) (composite_score b) with h | h | h
    · exact Or.inr (Or.inl h)
    · rcases Nat.le_total b.filed_date a.filed_date with hd | hd
      · exact Or.inl (Or.inr ⟨h, hd⟩)
      · exact Or.inr (Or.inr ⟨h.symm, hd⟩)
    · exact Or.inl (Or.inl h)

instance : IsTrans RetrievedCase rankRel where
  trans a b c hab hbc := by
    rcases hab with hab | ⟨hab, had⟩
    · rcases hbc with hbc | ⟨hbc, _⟩
      · exact Or.inl (hbc.trans hab)
      · exact Or.inl (hbc ▸ hab)
    · rcases hbc with hbc | ⟨hbc, hbd⟩
      · exact Or.inl (hab ▸ hbc)
      · exact Or.inr ⟨hab.trans hbc, hbd.trans had⟩

/-- Deduplicate a candidate list by document_id, keeping the first
occurrence of each id and skipping ids already seen. -/
def dedupByDoc (seen : List Nat) : List RetrievedCase → List RetrievedCase
  | [] => []
  | c :: cs =>
    if c.document_id ∈ seen then dedupByDoc seen cs
    else c :: dedupByDoc (c.document_id :: seen) cs

/-- Modelled from the spec: the merged, deduplicated, fully ranked
candidate list (union of the two pools before truncation). -/
def retrieveAll (namePool semPool : List RetrievedCase) :
    List RetrievedCase :=
  List.insertionSort rankRel (dedupByDoc [] (namePool ++ semPool))

/-- Modelled from the spec: the Case Retriever's result — the ranked
deduplicated union truncated to the query limit. -/
def retrieve (namePool semPool : List RetrievedCase) (limit : Nat) :
    List RetrievedCase :=
  (retrieveAll namePool semPool).take limit

/-! ## Backend counterparty-name normalization (rag_service.py, not in this
tree).

Modelled from the spec, section 4.2, step 1: normalize raw_name by
case-folding, stripping trailing corporate suffixes such as "Pvt Ltd" and
"LLP", and collapsing whitespace. -/

/-- Split a character list into whitespace-free tokens, collapsing runs of
whitespace; `acc` is the reversed current token. -/
def splitWsAux : List Char → List Char → List (List Char)
  | [], acc => if acc = [] then [] else [acc.reverse]
  | c :: cs, acc =>
    if c.isWhitespace then
      if acc = [] then splitWsAux cs [] else acc.reverse :: splitWsAux cs []
    else splitWsAux cs (c :: acc)

/-- The whitespace-separated tokens of a character list. -/
def splitWsTokens (cs : List Char) : List (List Char) :=
  splitWsAux cs []

/-- Join tokens with single spaces. -/
def joinTokens : List (List Char) → List Char
  | [] => []
  | [w] => w
  | w :: ws => w ++ ' ' :: joinTokens ws

/-- Corporate-suffix tokens stripped by normalization (already
lower-cased). -/
def suffixToken (w : List Char) : Bool :=
  w = ['p', 'v', 't'] || w = ['l', 't', 'd'] || w = ['l', 'l', 'p']

/-- Remove all trailing corporate-suffix tokens. -/
def stripSuffixTokens (ws : List (List Char)) : List (List Char) :=
  (ws.reverse.dropWhile suffixToken).reverse

/-- Modelled from the spec: counterparty-name normalization — case-fold,
split on whitespace (collapsing runs and trimming ends), drop trailing
corporate-suffix tokens, and rejoin with single spaces. -/
def normalize (s : String) : String :=
  ⟨joinTokens (stripSuffixTokens (splitWsTokens (s.data.map Char.toLower)))⟩

end NyaayDarpan

namespace NyaayDarpan

/-- Claim C10: `getRiskColor` is total on strings and maps the three defined
risk levels case-insensitively: "destructive" iff the input lower-cases to
"high", "warning" iff to "medium", "success" iff to "low", and "secondary"
exactly on every other string, so every input yields one of four values. -/
theorem getRiskColor_total (level : String) :
    (getRiskColor level = "destructive" ↔ lowerStr level = "high") ∧
    (getRiskColor level = "warning" ↔ lowerStr level = "medium") ∧
    (getRiskColor level = "success" ↔ lowerStr level = "low") ∧
    (getRiskColor level = "secondary" ↔
      (lowerStr level ≠ "high" ∧ lowerStr level ≠ "medium" ∧
        lowerStr level ≠ "low")) ∧
    (getRiskColor level = "destructive" ∨ getRiskColor level = "warning" ∨
      getRiskColor level = "success" ∨ getRiskColor level = "secondary") := by
  by_cases h1 : lowerStr level = "high" <;>
    by_cases h2 : lowerStr level = "medium" <;>
      by_cases h3 : lowerStr level = "low" <;>
        simp_all [getRiskColor]

/-- Claim C7: a submission whose counterparty name (or contract text) is
empty or all-whitespace is rejected at the boundary: `handleSubmit` stores
no contract data and does not navigate to the analysis flow. -/
theorem handleSubmit_rejects_blank (contractText partyName language : String)
    (now : Nat)
    (h : isBlank partyName = true ∨ isBlank contractText = true) :
    submitStores (handleSubmit contractText partyName language now) = none ∧
    submitNavigates (handleSubmit contractText partyName language now)
      = false := by
  unfold handleSubmit
  rcases h with h | h
  · by_cases hc : isBlank contractText <;>
      simp [hc, h, submitStores, submitNavigates]
  · simp [h, submitStores, submitNavigates]

/-- Witness for C7 at a concrete blank party name. -/
theorem handleSubmit_rejects_blank_witness :
    submitStores (handleSubmit "some contract text" "   " "en" 0) = none ∧
    submitNavigates (handleSubmit "some contract text" "   " "en" 0)
      = false :=
  handleSubmit_rejects_blank "some contract text" "   " "en" 0
    (Or.inl (by decide))

/-- Claim C8: the contract-finding normalizer keeps every raw finding (the
output has one row per raw item) and maps each one onto the defined display
vocabulary, even when the raw category or severity is outside it. -/
theorem contractAnalysis_normalizes_every_finding
    (items : List LoopholeItem) :
    (contractAnalysisRows items).length = items.length ∧
    ∀ r ∈ contractAnalysisRows items,
      (r.title = "Ambiguous Clause" ∨ r.title = "Missing Protection") ∧
      (r.riskLevel = "High" ∨ r.riskLevel = "Medium" ∨
        r.riskLevel = "Low") := by
  constructor
  · simp [contractAnalysisRows]
  · intro r hr
    obtain ⟨p, hp, rfl⟩ := List.mem_map.mp hr
    unfold normalizeLoophole
    constructor
    · by_cases h : p.2.loophole_type = "ambiguity" <;> simp [h]
    · by_cases h1 : p.2.exploitation_potential = "high" <;>
        by_cases h2 : p.2.exploitation_potential = "medium" <;>
          simp [h1, h2]

/-- Counterexample to claim C1 as stated: when the karma-check fetch throws,
the caller does not receive a degraded KarmaScore with risk_level
"unknown" — it receives nothing at all, and the report's karma section is
the empty list. -/
theorem karma_no_degraded_on_failure :
    performKarmaCheck (Except.error "network error") = none ∧
    karmaCheckRows (performKarmaCheck (Except.error "network error")) = [] ∧
    ¬ ∃ k, performKarmaCheck (Except.error "network error") = some k ∧
        k.risk_level = "unknown" := by
  refine ⟨rfl, rfl, ?_⟩
  rintro ⟨k, hk, -⟩
  simp [performKarmaCheck] at hk

/-- Claim C1 as amended: when the karma-check fetch throws or returns a
non-OK status, no error is propagated to the end user (the failure is
swallowed), but no degraded KarmaScore is produced either: the state stays
null and the report's karma section renders as the empty list. -/
theorem karma_failure_silent (fr : Except String KarmaFetchResponse)
    (h : karmaFetchFailed fr = true) :
    performKarmaCheck fr = none ∧
    karmaCheckRows (performKarmaCheck fr) = [] := by
  cases fr with
  | error e => exact ⟨rfl, rfl⟩
  | ok r =>
    simp only [karmaFetchFailed, Bool.not_eq_true'] at h
    simp [performKarmaCheck, h, karmaCheckRows]

/-- Witness for the amended C1 at a concrete thrown fetch. -/
theorem karma_failure_silent_witness :
    performKarmaCheck (Except.error "boom") = none ∧
    karmaCheckRows (performKarmaCheck (Except.error "boom")) = [] :=
  karma_failure_silent (Except.error "boom") rfl

/-- Counterexample to claim C9 as stated: at a concrete failing backend
call, the report page renders the "Analysis Results Not Found" error view,
not a (degraded) report — the failure is surfaced to the end user. -/
theorem analysis_failure_shows_error_view :
    (callBackendAPI (Except.error "backend down")).storedAnalysis
      = none ∧
    reportPageView
      (callBackendAPI (Except.error "backend down")).storedAnalysis none
      = .errorNotFound ∧
    ¬ ∃ res, reportPageView
        (callBackendAPI (Except.error "backend down")).storedAnalysis none
        = .report res := by
  refine ⟨rfl, rfl, ?_⟩
  rintro ⟨res, hres⟩
  simp [callBackendAPI, reportPageView] at hres

/-- Claim C9 as amended: every contract-analysis request routes to the
report view and the analyzing page itself shows no error UI (its catch
block only logs and still redirects); but when the backend call fails
(throws or non-OK) nothing is stored, and the report page then surfaces
the failure as the "Analysis Results Not Found" error view instead of
rendering a degraded report — the degraded default object is computed but
dead in that branch. -/
theorem analyzing_routes_but_error_view
    (fr : Except String AnalysisFetchResponse)
    (karma : Option KarmaCheckResponse)
    (h : analysisFetchFailed fr = true) :
    (callBackendAPI fr).navigatesToReport = true ∧
    (callBackendAPI fr).alertShown = false ∧
    (callBackendAPI fr).storedAnalysis = none ∧
    reportPageView (callBackendAPI fr).storedAnalysis karma
      = .errorNotFound := by
  cases fr with
  | error e => exact ⟨rfl, rfl, rfl, rfl⟩
  | ok r =>
    simp only [analysisFetchFailed, Bool.not_eq_true'] at h
    simp [callBackendAPI, h, reportPageView]

/-! ### Risk Scorer lemmas and claims C2-C4 -/

theorem outcome_weight_nonneg (o : Outcome) (b : Bool) :
    0 ≤ outcome_weight o b := by
  cases o <;> unfold outcome_weight <;> try norm_num
  cases b <;> norm_num

theorem recency_weight_nonneg (a : ℚ) : 0 ≤ recency_weight a := by
  unfold recency_weight
  split_ifs
  · norm_num
  · exact le_trans (by norm_num) (le_max_left _ _)

theorem case_weight_nonneg (c : ScoredCase)
    (h : 0 ≤ c.name_match_confidence) : 0 ≤ case_weight c :=
  mul_nonneg (mul_nonneg (outcome_weight_nonneg _ _)
    (recency_weight_nonneg _)) h

theorem weight_sum_nonneg (cases : List ScoredCase)
    (h : ∀ c ∈ cases, 0 ≤ c.name_match_confidence) :
    0 ≤ weight_sum cases := by
  apply List.sum_nonneg
  intro x hx
  obtain ⟨c, hc, rfl⟩ := List.mem_map.mp hx
  exact case_weight_nonneg c (h c hc)

theorem round_mono_real {x y : ℝ} (h : x ≤ y) : round x ≤ round y := by
  rw [round_eq, round_eq]
  exact Int.floor_le_floor (by linarith)

theorem numeric_score_of_sum_eq (s : ℝ) :
    numeric_score_of_sum s
      = min 100 (round ((100 : ℝ) * (1 - Real.exp (-s / 3)))) := by
  simp [numeric_score_of_sum, normalization_constant]

theorem numeric_score_of_sum_nonneg {s : ℝ} (h : 0 ≤ s) :
    0 ≤ numeric_score_of_sum s := by
  rw [numeric_score_of_sum_eq]
  apply le_min (by norm_num)
  have hexp : Real.exp (-s / 3) ≤ 1 :=
    Real.exp_le_one_iff.mpr (by linarith)
  calc (0 : ℤ) = round (0 : ℝ) := by rw [round_zero]
    _ ≤ round ((100 : ℝ) * (1 - Real.exp (-s / 3))) :=
        round_mono_real (by nlinarith)

theorem numeric_score_of_sum_le (s : ℝ) : numeric_score_of_sum s ≤ 100 := by
  rw [numeric_score_of_sum_eq]
  exact min_le_left _ _

theorem numeric_score_of_sum_mono {s1 s2 : ℝ} (h : s1 ≤ s2) :
    numeric_score_of_sum s1 ≤ numeric_score_of_sum s2 := by
  rw [numeric_score_of_sum_eq, numeric_score_of_sum_eq]
  apply min_le_min (le_refl 100)
  apply round_mono_real
  have hexp : Real.exp (-s2 / 3) ≤ Real.exp (-s1 / 3) :=
    Real.exp_le_exp.mpr (by linarith)
  nlinarith

/-- Claim C2: the Risk Scorer on an empty retrieval result yields
numeric_score 0, risk_level low, no cases considered, and the
no-adverse-history summary. -/
theorem riskScorer_empty :
    riskScorer [] =
      { numeric_score := 0
        risk_level := .low
        cases_considered := []
        summary_text := "no adverse history found" } := by
  simp [riskScorer]

/-- Claim C3: for every finite retrieval result (with well-formed
name-match confidences), the numeric score is an integer in [0, 100]. -/
theorem numeric_score_bounded (cases : List ScoredCase)
    (h : ∀ c ∈ cases, 0 ≤ c.name_match_confidence) :
    0 ≤ (riskScorer cases).numeric_score ∧
    (riskScorer cases).numeric_score ≤ 100 := by
  by_cases hc : cases = []
  · subst hc
    simp [riskScorer]
  · have hs : (0 : ℚ) ≤ weight_sum cases := weight_sum_nonneg cases h
    simp only [riskScorer, if_neg hc]
    exact ⟨numeric_score_of_sum_nonneg (by exact_mod_cast hs),
      numeric_score_of_sum_le _⟩

/-- Witness for C3 at a concrete one-case retrieval result. -/
theorem numeric_score_bounded_witness :
    0 ≤ (riskScorer [⟨1, .defendant_won, true, 1, 1⟩]).numeric_score ∧
    (riskScorer [⟨1, .defendant_won, true, 1, 1⟩]).numeric_score ≤ 100 :=
  numeric_score_bounded [⟨1, .defendant_won, true, 1, 1⟩]
    (by intro c hc; simp at hc; subst hc; norm_num)

/-- Claim C4: for non-empty retrieval results the numeric score is
monotonically non-decreasing in the total case_weight. -/
theorem numeric_score_monotone (l1 l2 : List ScoredCase)
    (h1 : l1 ≠ []) (h2 : l2 ≠ [])
    (hle : weight_sum l1 ≤ weight_sum l2) :
    (riskScorer l1).numeric_score ≤ (riskScorer l2).numeric_score := by
  simp only [riskScorer, if_neg h1, if_neg h2]
  exact numeric_score_of_sum_mono (by exact_mod_cast hle)

/-- Witness for C4 at concrete one- and two-case results. -/
theorem numeric_score_monotone_witness :
    (riskScorer [⟨1, .defendant_won, true, 1, 1⟩]).numeric_score ≤
    (riskScorer [⟨1, .defendant_won, true, 1, 1⟩,
      ⟨2, .defendant_won, true, 1, 1⟩]).numeric_score :=
  numeric_score_monotone _ _ (by simp) (by simp)
    (by norm_num [weight_sum, case_weight, outcome_weight, recency_weight])

/-! ### Case Retriever lemmas and claim C5 -/

theorem dedupByDoc_subset (l : List RetrievedCase) (seen : List Nat) :
    ∀ c ∈ dedupByDoc seen l, c ∈ l := by
  induction l generalizing seen with
  | nil => intro c hc; exact absurd hc (List.not_mem_nil c)
  | cons a l ih =>
    intro c hc
    unfold dedupByDoc at hc
    split at hc
    · exact List.mem_cons_of_mem a (ih seen c hc)
    · rcases List.mem_cons.mp hc with h | h
      · exact h ▸ List.mem_cons_self a l
      · exact List.mem_cons_of_mem a (ih _ c h)

theorem dedupByDoc_nodup (l : List RetrievedCase) (seen : List Nat) :
    ((dedupByDoc seen l).map fun c => c.document_id).Nodup ∧
    ∀ i ∈ (dedupByDoc seen l).map fun c => c.document_id, i ∉ seen := by
  induction l generalizing seen with
  | nil => exact ⟨List.nodup_nil, by intro i hi; cases hi⟩
  | cons a l ih =>
    unfold dedupByDoc
    split
    · exact ih seen
    · rename_i hnot
      obtain ⟨ih1, ih2⟩ := ih (a.document_id :: seen)
      refine ⟨List.nodup_cons.mpr ⟨?_, ih1⟩, ?_⟩
      · intro hmem
        exact (ih2 _ hmem) (List.mem_cons_self _ _)
      · intro i hi
        rcases List.mem_cons.mp hi with h | h
        · exact h ▸ hnot
        · intro hseen
          exact (ih2 i h) (List.mem_cons_of_mem _ hseen)

theorem dedupByDoc_complete (l : List RetrievedCase) (seen : List Nat)
    (i : Nat) (hi : i ∈ l.map fun c => c.document_id) :
    i ∈ seen ∨ i ∈ (dedupByDoc seen l).map fun c => c.document_id := by
  induction l generalizing seen with
  | nil => cases hi
  | cons a l ih =>
    rcases List.mem_cons.mp hi with h | h
    · unfold dedupByDoc
      split
      · rename_i hmem
        exact Or.inl (h ▸ hmem)
      · refine Or.inr ?_
        rw [List.map_cons, h]
        exact List.mem_cons_self _ _
    · unfold dedupByDoc
      split
      · exact ih seen h
      · rcases ih (a.document_id :: seen) h with hl | hr
        · rcases List.mem_cons.mp hl with h1 | h1
          · refine Or.inr ?_
            rw [List.map_cons, h1]
            exact List.mem_cons_self _ _
          · exact Or.inl h1
        · refine Or.inr ?_
          rw [List.map_cons]
          exact List.mem_cons_of_mem _ hr

/-- Claim C5: the Case Retriever returns the union of the two candidate
pools deduplicated by document_id, in descending composite-score order with
ties broken by most recent filed_date, truncated to the query limit: the
truncated result is sorted, has pairwise-distinct document ids, respects
the limit and draws only from the pools, and before truncation every
pool document's id is present. -/
theorem retrieve_spec (np sp : List RetrievedCase) (limit : Nat) :
    List.Sorted rankRel (retrieve np sp limit) ∧
    ((retrieve np sp limit).map fun c => c.document_id).Nodup ∧
    (retrieve np sp limit).length ≤ limit ∧
    (∀ c ∈ retrieve np sp limit, c ∈ np ++ sp) ∧
    (∀ c ∈ np ++ sp,
      c.document_id ∈ (retrieveAll np sp).map fun d => d.document_id) := by
  have hperm := List.perm_insertionSort rankRel (dedupByDoc [] (np ++ sp))
  refine ⟨?_, ?_, ?_, ?_, ?_⟩
  · exact List.Pairwise.sublist (List.take_sublist _ _)
      (List.sorted_insertionSort rankRel _)
  · have hnodup : ((retrieveAll np sp).map fun c => c.document_id).Nodup :=
      ((hperm.map _).nodup_iff).mpr (dedupByDoc_nodup (np ++ sp) []).1
    rw [retrieve, List.map_take]
    exact hnodup.sublist (List.take_sublist _ _)
  · rw [retrieve, List.length_take]
    exact min_le_left _ _
  · intro c hc
    have h1 : c ∈ retrieveAll np sp :=
      (List.take_sublist _ _).subset hc
    have h2 : c ∈ dedupByDoc [] (np ++ sp) :=
      (List.mem_insertionSort rankRel).mp h1
    exact dedupByDoc_subset (np ++ sp) [] c h2
  · intro c hc
    have h1 : c.document_id ∈ (np ++ sp).map fun d => d.document_id :=
      List.mem_map_of_mem _ hc
    rcases dedupByDoc_complete (np ++ sp) [] c.document_id h1 with h | h
    · cases h
    · exact ((hperm.map _).mem_iff).mpr h

/-! ### Name-normalization lemmas and claim C6 -/

theorem char_toLower_eq (c : Char) :
    c.toLower
      = if c.toNat ≥ 65 ∧ c.toNat ≤ 90 then Char.ofNat (c.toNat + 32)
        else c := rfl

theorem char_toNat_ofNat_valid (n : Nat) (h : n.isValidChar) :
    (Char.ofNat n).toNat = n := by
  rw [Char.ofNat, dif_pos h]
  rfl

theorem char_toLower_idem (c : Char) : c.toLower.toLower = c.toLower := by
  by_cases h : c.toNat ≥ 65 ∧ c.toNat ≤ 90
  · have hval : (c.toNat + 32).isValidChar := Or.inl (by omega)
    have h32 : (Char.ofNat (c.toNat + 32)).toNat = c.toNat + 32 :=
      char_toNat_ofNat_valid _ hval
    rw [char_toLower_eq c, if_pos h, char_toLower_eq, h32,
      if_neg (by omega)]
  · have hc : c.toLower = c := by rw [char_toLower_eq c, if_neg h]
    rw [hc]
    exact hc

theorem splitWsAux_nil (acc : List Char) :
    splitWsAux [] acc = if acc = [] then [] else [acc.reverse] := rfl

theorem splitWsAux_cons (a : Char) (cs acc : List Char) :
    splitWsAux (a :: cs) acc
      = if a.isWhitespace then
          (if acc = [] then splitWsAux cs []
           else acc.reverse :: splitWsAux cs [])
        else splitWsAux cs (a :: acc) := rfl

theorem splitWsAux_tokens (cs : List Char) :
    ∀ acc : List Char, (∀ c ∈ acc, c.isWhitespace = false) →
      ∀ w ∈ splitWsAux cs acc,
        w ≠ [] ∧ ∀ c ∈ w, c.isWhitespace = false := by
  induction cs with
  | nil =>
    intro acc hacc w hw
    unfold splitWsAux at hw
    split at hw
    · cases hw
    · rename_i hne
      have hw' : w = acc.reverse := List.mem_singleton.mp hw
      subst hw'
      refine ⟨by simpa using hne, ?_⟩
      intro c hc
      exact hacc c (List.mem_reverse.mp hc)
  | cons a cs ih =>
    intro acc hacc w hw
    unfold splitWsAux at hw
    by_cases ha : a.isWhitespace
    · rw [if_pos ha] at hw
      split at hw
      · exact ih [] (by intro c hc; cases hc) w hw
      · rename_i hne
        rcases List.mem_cons.mp hw with h | h
        · subst h
          refine ⟨by simpa using hne, ?_⟩
          intro c hc
          exact hacc c (List.mem_reverse.mp hc)
        · exact ih [] (by intro c hc; cases hc) w h
    · rw [if_neg ha] at hw
      refine ih (a :: acc) ?_ w hw
      intro c hc
      rcases List.mem_cons.mp hc with h | h
      · subst h
        exact Bool.not_eq_true _ ▸ (by simpa using ha)
      · exact hacc c h

theorem splitWsAux_chars (cs : List Char) :
    ∀ acc : List Char, ∀ w ∈ splitWsAux cs acc, ∀ c ∈ w,
      c ∈ cs ∨ c ∈ acc := by
  induction cs with
  | nil =>
    intro acc w hw c hc
    unfold splitWsAux at hw
    split at hw
    · cases hw
    · have hw' : w = acc.reverse := List.mem_singleton.mp hw
      subst hw'
      exact Or.inr (List.mem_reverse.mp hc)
  | cons a cs ih =>
    intro acc w hw c hc
    unfold splitWsAux at hw
    by_cases ha : a.isWhitespace
    · rw [if_pos ha] at hw
      split at hw
      · rcases ih [] w hw c hc with h | h
        · exact Or.inl (List.mem_cons_of_mem a h)
        · cases h
      · rcases List.mem_cons.mp hw with h | h
        · subst h
          exact Or.inr (List.mem_reverse.mp hc)
        · rcases ih [] w h c hc with h' | h'
          · exact Or.inl (List.mem_cons_of_mem a h')
          · cases h'
    · rw [if_neg ha] at hw
      rcases ih (a :: acc) w hw c hc with h | h
      · exact Or.inl (List.mem_cons_of_mem a h)
      · rcases List.mem_cons.mp h with h' | h'
        · exact Or.inl (h' ▸ List.mem_cons_self a cs)
        · exact Or.inr h'

theorem splitWsAux_append (w : List Char)
    (hw : ∀ c ∈ w, c.isWhitespace = false) :
    ∀ rest acc, splitWsAux (w ++ rest) acc
      = splitWsAux rest (w.reverse ++ acc) := by
  induction w with
  | nil => intro rest acc; simp
  | cons a w ih =>
    intro rest acc
    have ha : a.isWhitespace = false := hw a (List.mem_cons_self a w)
    rw [List.cons_append, splitWsAux_cons, if_neg (by simp [ha]),
      ih (fun c hc => hw c (List.mem_cons_of_mem a hc)) rest (a :: acc)]
    congr 1
    rw [List.reverse_cons, List.append_assoc]
    rfl

theorem joinTokens_cons_cons (w w2 : List Char) (ws : List (List Char)) :
    joinTokens (w :: w2 :: ws) = w ++ ' ' :: joinTokens (w2 :: ws) := rfl

theorem splitWs_joinTokens (ts : List (List Char))
    (h : ∀ w ∈ ts, w ≠ [] ∧ ∀ c ∈ w, c.isWhitespace = false) :
    splitWsTokens (joinTokens ts) = ts := by
  induction ts with
  | nil => rfl
  | cons w ws ih =>
    obtain ⟨hw0, hwc⟩ := h w (List.mem_cons_self w ws)
    cases ws with
    | nil =>
      show splitWsTokens (joinTokens [w]) = [w]
      unfold splitWsTokens
      calc splitWsAux (joinTokens [w]) []
          = splitWsAux (w ++ []) [] := by
            show splitWsAux w [] = _
            rw [List.append_nil]
        _ = splitWsAux [] (w.reverse ++ []) := splitWsAux_append w hwc [] []
        _ = [w] := by
            rw [List.append_nil]
            unfold splitWsAux
            rw [if_neg (by simpa using hw0), List.reverse_reverse]
    | cons w2 ws2 =>
      show splitWsTokens (joinTokens (w :: w2 :: ws2)) = w :: w2 :: ws2
      unfold splitWsTokens
      rw [joinTokens_cons_cons,
        splitWsAux_append w hwc (' ' :: joinTokens (w2 :: ws2)) [],
        List.append_nil]
      show splitWsAux (' ' :: joinTokens (w2 :: ws2)) w.reverse
        = w :: w2 :: ws2
      unfold splitWsAux
      rw [if_pos (by decide), if_neg (by simpa using hw0),
        List.reverse_reverse]
      exact congrArg (w :: ·)
        (ih fun x hx => h x (List.mem_cons_of_mem w hx))

theorem map_toLower_join (ts : List (List Char))
    (h : ∀ w ∈ ts, ∀ c ∈ w, c.toLower = c) :
    (joinTokens ts).map Char.toLower = joinTokens ts := by
  induction ts with
  | nil => rfl
  | cons w ws ih =>
    cases ws with
    | nil =>
      show w.map Char.toLower = w
      calc w.map Char.toLower
          = w.map id :=
            List.map_congr_left fun c hc =>
              h w (List.mem_cons_self w []) c hc
        _ = w := List.map_id w
    | cons w2 ws2 =>
      rw [joinTokens_cons_cons, List.map_append, List.map_cons]
      have h1 : w.map Char.toLower = w :=
        calc w.map Char.toLower
            = w.map id :=
              List.map_congr_left fun c hc =>
                h w (List.mem_cons_self w (w2 :: ws2)) c hc
          _ = w := List.map_id w
      rw [h1, show ' '.toLower = ' ' from rfl,
        ih fun x hx => h x (List.mem_cons_of_mem w hx)]

theorem mem_stripSuffixTokens (ws : List (List Char)) :
    ∀ w ∈ stripSuffixTokens ws, w ∈ ws := by
  intro w hw
  unfold stripSuffixTokens at hw
  rw [List.mem_reverse] at hw
  exact List.mem_reverse.mp ((List.dropWhile_sublist _).subset hw)

theorem dropWhile_idem {α : Type} (p : α → Bool) (l : List α) :
    (l.dropWhile p).dropWhile p = l.dropWhile p := by
  induction l with
  | nil => rfl
  | cons a l ih =>
    by_cases pa : p a
    · simp [List.dropWhile_cons, pa, ih]
    · simp [List.dropWhile_cons, pa]

theorem stripSuffixTokens_idem (ws : List (List Char)) :
    stripSuffixTokens (stripSuffixTokens ws) = stripSuffixTokens ws := by
  unfold stripSuffixTokens
  rw [List.reverse_reverse, dropWhile_idem]

/-- Claim C6: counterparty-name normalization is idempotent:
normalize (normalize x) = normalize x for every string x. -/
theorem normalize_idem (s : String) : normalize (normalize s) = normalize s := by
  have hts : normalize s
      = ⟨joinTokens (stripSuffixTokens
          (splitWsTokens (s.data.map Char.toLower)))⟩ := rfl
  set ts := stripSuffixTokens (splitWsTokens (s.data.map Char.toLower))
    with hdef
  have htok : ∀ w ∈ ts, w ≠ [] ∧ ∀ c ∈ w, c.isWhitespace = false := by
    intro w hw
    exact splitWsAux_tokens _ [] (by intro c hc; cases hc) w
      (mem_stripSuffixTokens _ w hw)
  have hlower : ∀ w ∈ ts, ∀ c ∈ w, c.toLower = c := by
    intro w hw c hc
    rcases splitWsAux_chars _ [] w (mem_stripSuffixTokens _ w hw) c hc
      with h | h
    · obtain ⟨d, hd, rfl⟩ := List.mem_map.mp h
      exact char_toLower_idem d
    · cases h
  rw [hts]
  show normalize ⟨joinTokens ts⟩ = ⟨joinTokens ts⟩
  unfold normalize
  show (⟨joinTokens (stripSuffixTokens (splitWsTokens
      ((joinTokens ts).map Char.toLower)))⟩ : String) = ⟨joinTokens ts⟩
  rw [map_toLower_join ts hlower, splitWs_joinTokens ts htok, hdef,
    stripSuffixTokens_idem]

/-- Witness for the amended C9 at a concrete failing fetch. -/
theorem analyzing_routes_but_error_view_witness :
    (callBackendAPI (Except.error "service unavailable")).navigatesToReport
      = true ∧
    (callBackendAPI (Except.error "service unavailable")).alertShown
      = false ∧
    (callBackendAPI (Except.error "service unavailable")).storedAnalysis
      = none ∧
    reportPageView
      (callBackendAPI (Except.error "service unavailable")).storedAnalysis
      none = .errorNotFound :=
  analyzing_routes_but_error_view (Except.error "service unavailable")
    none rfl

end NyaayDarpan
